import Mathlib

/-!
Verification of the tg-hamster verification-session engine
(`internal/bot/bot.go`, `internal/bot/timeout.go`) against its
natural-language specification.

The Go code is shallowly embedded: Go maps become association lists,
`int`/`int64` become `Int`, random draws (`randString`, `pickPhrase`)
become explicit parameters, external side effects (Telegram API calls)
become entries of an effect trace, and the goroutine/channel structure of
the countdown race is modelled as an explicit small-step system whose
schedule (the interleaving, including the choice Go's `select` makes when
several cases are ready) is a parameter.

The file is organised as: definitions (in source order where possible),
then helper lemmas, then one theorem per specification claim.
-/

namespace TgHamster

/-! ## Association lists standing in for Go maps -/

/-- Association-list lookup: the first binding of the key, as a Go map read. -/
def assocGet {α β : Type} [DecidableEq α] : List (α × β) → α → Option β
  | [], _ => none
  | (k', v) :: t, k => if k' = k then some v else assocGet t k

/-- Association-list update, replacing an existing binding: a Go map write. -/
def assocSet {α β : Type} [DecidableEq α] : List (α × β) → α → β → List (α × β)
  | [], k, v => [(k, v)]
  | (k', v') :: t, k, v => if k' = k then (k, v) :: t else (k', v') :: assocSet t k v

/-- Association-list removal of every binding of a key: a Go map `delete`. -/
def assocRemove {α β : Type} [DecidableEq α] : List (α × β) → α → List (α × β)
  | [], _ => []
  | (k', v') :: t, k => if k' = k then assocRemove t k else (k', v') :: assocRemove t k

/-! ## Timeouts (`internal/bot/timeout.go`)

The authoritative `Timeouts` implementation is the one that compiles with
`bot.go` (`Load`/`Save` over the package `Logger`, returning `error`); its
`Set` clamps to `[MinTimeoutSec, MaxTimeoutSec]` and `Get` falls back to
`DefaultTimeoutSec`. The `Data` map is embedded as an association list. -/

def DefaultTimeoutSec : Int := 60

def MinTimeoutSec : Int := 5

def MaxTimeoutSec : Int := 600

/-- `Timeouts.Get`: the stored value for the chat, or `DefaultTimeoutSec`. -/
def timeoutsGet (data : List (Int × Int)) (chatID : Int) : Int :=
  match assocGet data chatID with
  | some v => v
  | none => DefaultTimeoutSec

/-- `Timeouts.Set`: clamps `seconds` to `[MinTimeoutSec, MaxTimeoutSec]` and stores it. -/
def timeoutsSet (data : List (Int × Int)) (chatID seconds : Int) : List (Int × Int) :=
  let s1 := if seconds < MinTimeoutSec then MinTimeoutSec else seconds
  let s2 := if s1 > MaxTimeoutSec then MaxTimeoutSec else s1
  assocSet data chatID s2

/-- Apply a sequence of `Timeouts.Set` calls, starting from `NewTimeouts`'s empty map. -/
def timeoutsOfSets (ops : List (Int × Int)) : List (Int × Int) :=
  ops.foldl (fun d p => timeoutsSet d p.1 p.2) []

/-! ## retryHTTP (`bot.go` lines 510-521)

`retryHTTP` runs the operation for `i = 0, 1, 2`; a failed attempt records
the error and sleeps `(i+1) * 500` milliseconds before the next loop
iteration; a successful attempt returns `nil` immediately. The outcome of
attempt `i` is supplied as `f i` (`none` = success, `some e` = error). The
result records the returned error, the number of attempts actually made,
and the backoff sleeps performed, in order. -/

structure RetryResult (E : Type) where
  err : Option E
  attempts : Nat
  sleeps : List Nat
deriving DecidableEq

/-- The loop body of `retryHTTP`: `i` is the loop counter, `fuel` the number of
remaining iterations (`3 - i`), `lastErr`, `att`, `sl` the accumulators. -/
def retryAux {E : Type} (f : Nat → Option E) :
    Nat → Nat → Option E → Nat → List Nat → RetryResult E
  | _, 0, lastErr, att, sl => ⟨lastErr, att, sl.reverse⟩
  | i, fuel + 1, _, att, sl =>
    match f i with
    | some e => retryAux f (i + 1) fuel (some e) (att + 1) ((500 * (i + 1)) :: sl)
    | none => ⟨none, att + 1, sl.reverse⟩

/-- `retryHTTP`: three attempts, linear backoff, last error surfaced. -/
def retryHTTP {E : Type} (f : Nat → Option E) : RetryResult E :=
  retryAux f 0 3 none 0 []

/-! ## progressBar and nextClockEmoji (`bot.go` lines 726-746)

`strings.Repeat` panics on a negative count, so the repeat and the bar are
`Option`-valued (`none` = panic). Go's `int` is a signed 64-bit integer
whose `*` and `-` wrap around (`wrap64`), and whose `/` truncates toward
zero (`Int.tdiv`; the quotient cannot overflow here since the divisor is
positive on the dividing branch). -/

/-- Go's signed 64-bit wrap-around: the representative of `x` modulo `2^64`
in `[-2^63, 2^63)`. -/
def wrap64 (x : Int) : Int := (x + 2 ^ 63) % 2 ^ 64 - 2 ^ 63

/-- `strings.Repeat`: `none` models the panic on a negative count. -/
def goRepeat (s : String) (count : Int) : Option String :=
  if count < 0 then none
  else some (String.join (List.replicate count.toNat s))

/-- `progressBar(total, remaining)`: 8 blocks, green for the remaining-time
ratio, black otherwise; all black when `total <= 0`. `remaining * n` and
`n - filled` are Go `int` operations and wrap. -/
def progressBar (total remaining : Int) : Option String :=
  let n : Int := 8
  if total ≤ 0 then
    (goRepeat "⬛" n).map (fun b => "[" ++ b ++ "]")
  else
    let filled := Int.tdiv (wrap64 (remaining * n)) total
    let filled := if filled > n then n else filled
    match goRepeat "⬛" (wrap64 (n - filled)), goRepeat "🟩" filled with
    | some b, some g => some ("[" ++ b ++ g ++ "]")
    | _, _ => none

def clocks : List String :=
  ["🕛", "🕧", "🕐", "🕜", "🕑", "🕝", "🕒", "🕞",
   "🕓", "🕟", "🕔", "🕠", "🕕", "🕡", "🕖", "🕢",
   "🕗", "🕣", "🕘", "🕤", "🕙", "🕥", "🕚", "🕦"]

/-- `nextClockEmoji(i)`: the clock face for tick `i`, cycling through 24 faces. -/
def nextClockEmoji (i : Nat) : String :=
  clocks.getD (i % clocks.length) ""

/-! ## Go string helpers used by the handlers -/

/-- `strings.Split` with a one-character separator, over the character list. -/
def splitChar (sep : Char) : List Char → List (List Char)
  | [] => [[]]
  | c :: cs =>
    let r := splitChar sep cs
    if c = sep then [] :: r
    else
      match r with
      | [] => [[c]]
      | h :: t => (c :: h) :: t

/-- `strings.Split(s, sep)` for a one-character separator. -/
def goSplit (s : String) (sep : Char) : List String :=
  (splitChar sep s.data).map List.asString

/-- Decimal digits to a number; `none` on a non-digit. -/
def decDigits (l : List Char) : Option Nat :=
  l.foldl
    (fun acc c =>
      match acc with
      | none => none
      | some n => if c.isDigit then some (n * 10 + (c.toNat - '0'.toNat)) else none)
    (some 0)

/-- `strconv.ParseInt(s, 10, 64)` with the error discarded, as in
`userID, _ := strconv.ParseInt(parts[1], 10, 64)`: an optional sign followed
by decimal digits; any syntax error yields `0`. (The int64 overflow cutoff is
not modelled; every identifier in scope is far below it.) -/
def parseIntGo (s : String) : Int :=
  match s.data with
  | [] => 0
  | '-' :: rest =>
    if rest.isEmpty then 0
    else match decDigits rest with
      | some n => -(n : Int)
      | none => 0
  | '+' :: rest =>
    if rest.isEmpty then 0
    else match decDigits rest with
      | some n => (n : Int)
      | none => 0
  | l =>
    match decDigits l with
    | some n => (n : Int)
    | none => 0

/-! ## Data model (`bot.go` lines 29-112)

`progressData.stopChan`/`stopOnce` are represented by a channel identity
plus the set of already-closed channels in the bot state; `sync.Once`
guarding `close` is the `closeOnce` operation below. -/

structure GoUser where
  id : Int
  firstName : String
  lastName : String
  username : String
  isBot : Bool
deriving DecidableEq

/-- The fields of `Message` the session engine and caches read
(`MessageID`, `Chat.ID`); `Text`, `From` and `NewChatMembers` appear on
`GoMessage` below where the handlers need them. -/
structure MsgRef where
  chatID : Int
  messageID : Int
deriving DecidableEq

structure CachedMessage where
  msg : MsgRef
  timestamp : Int
deriving DecidableEq

structure GoMessage where
  messageID : Int
  text : String
  chatID : Int
  fromUser : Option GoUser
  newChatMembers : List GoUser
deriving DecidableEq

structure Callback where
  cbFrom : Option GoUser
  message : Option GoMessage
  data : String
deriving DecidableEq

structure ProgressData where
  stopChanId : Int
  token : String
  userID : Int
  greetMsgID : Int
  progressMsgID : Int
deriving DecidableEq

/-- One entry of the effect trace: an outbound Telegram call. -/
inductive Effect where
  | sendSilent (chatID : Int) (text : String) (msgID : Int)
  | sendSilentWithMarkup (chatID : Int) (text buttonText callbackData : String) (msgID : Int)
  | editMessage (chatID msgID : Int) (text : String)
  | deleteMessage (chatID msgID : Int)
  | banChatMember (chatID userID : Int)
deriving DecidableEq

/-- The mutable state of `Bot` relevant to the claims, plus the trace of
outbound calls and an allocator for the message ids Telegram would assign. -/
structure BotState where
  progressStore : List (Int × ProgressData)
  activeTokens : List (Int × String)
  userMessages : List (Int × List CachedMessage)
  closedChans : List Int
  nextMsgID : Int
  trace : List Effect
deriving DecidableEq

/-! ## Outbound-call wrappers (`bot.go` lines 565-677) -/

def emit (s : BotState) (e : Effect) : BotState :=
  { s with trace := s.trace ++ [e] }

/-- `safeSendSilent`: emits the send and returns the assigned message id. -/
def safeSendSilent (s : BotState) (chatID : Int) (text : String) : BotState × Int :=
  ({ s with nextMsgID := s.nextMsgID + 1,
            trace := s.trace ++ [Effect.sendSilent chatID text s.nextMsgID] },
   s.nextMsgID)

/-- `safeSendSilentWithMarkup`: the one-button inline keyboard is recorded as
its button text and `callback_data` payload. -/
def safeSendSilentWithMarkup (s : BotState) (chatID : Int)
    (text buttonText callbackData : String) : BotState × Int :=
  ({ s with nextMsgID := s.nextMsgID + 1,
            trace := s.trace ++
              [Effect.sendSilentWithMarkup chatID text buttonText callbackData s.nextMsgID] },
   s.nextMsgID)

def safeDeleteMessage (s : BotState) (chatID msgID : Int) : BotState :=
  emit s (Effect.deleteMessage chatID msgID)

def safeEditMessage (s : BotState) (chatID msgID : Int) (text : String) : BotState :=
  emit s (Effect.editMessage chatID msgID text)

/-- `p.stopOnce.Do(func() { close(p.stopChan) })`: closing is recorded at most
once per channel. -/
def closeOnce (s : BotState) (chanId : Int) : BotState :=
  if chanId ∈ s.closedChans then s else { s with closedChans := chanId :: s.closedChans }

/-! ## Session manager (`bot.go` lines 249-418) -/

/-- `removeActiveToken` (lines 382-386). -/
def removeActiveToken (s : BotState) (userID : Int) : BotState :=
  { s with activeTokens := assocRemove s.activeTokens userID }

/-- `deleteUserMessages` (lines 450-466): delete the user's cached messages
in the chat and reset the user's list to empty. -/
def deleteUserMessages (s : BotState) (chatID userID : Int) : BotState :=
  match assocGet s.userMessages userID with
  | none => s
  | some msgs =>
    let effs := msgs.filterMap (fun m =>
      if m.msg.chatID = chatID then some (Effect.deleteMessage chatID m.msg.messageID)
      else none)
    { s with trace := s.trace ++ effs,
             userMessages := assocSet s.userMessages userID [] }

/-- `stopProgressbar` (lines 367-380): the whole body runs under
`progressStore.mu`, so it is one atomic step. Only a caller that still finds
the entry closes the channel, deletes the two session messages, removes the
entry and the active token; any later caller is a no-op. -/
def stopProgressbar (s : BotState) (chatID greetMsgID : Int) : BotState :=
  match assocGet s.progressStore greetMsgID with
  | none => s
  | some p =>
    let s1 := closeOnce s p.stopChanId
    let s2 := safeDeleteMessage s1 chatID p.greetMsgID
    let s3 := safeDeleteMessage s2 chatID p.progressMsgID
    let s4 := { s3 with progressStore := assocRemove s3.progressStore greetMsgID }
    removeActiveToken s4 p.userID

/-- `handleCallback` (lines 392-418). The locked lookup, the validation and
the `stopProgressbar` call are executed here as one step; running its
sub-steps consecutively is one legal interleaving of the finer-grained code. -/
def handleCallback (s : BotState) (cb : Callback) : BotState :=
  match cb.message, cb.cbFrom with
  | some m, some u =>
    match goSplit cb.data ':' with
    | [p0, p1, p2] =>
      if p0 = "click" then
        match assocGet s.progressStore m.messageID with
        | none => s
        | some p =>
          if u.id ≠ parseIntGo p1 ∨ p.token ≠ p2 then s
          else
            let s1 := stopProgressbar s m.chatID m.messageID
            let s2 := safeDeleteMessage s1 m.chatID p.greetMsgID
            (safeSendSilent s2 m.chatID ("✨ " ++ u.firstName ++ ", добро пожаловать!")).1
      else s
    | _ => s
  | _, _ => s

/-- The username fallback chain of `handleJoinMessage` (lines 251-257). -/
def usernameOf (u : GoUser) : String :=
  let username := (u.firstName ++ " " ++ u.lastName).trim
  let username := if username = "" then u.username else username
  if username = "" then "ID:" ++ toString u.id else username

/-- One iteration of `handleJoinMessage`'s member loop (lines 259-275),
excluding the spawned `startProgressbar` goroutine: sends the challenge
prompt with the `click:<userID>:<token>` button and deletes the join
message. `phrase` is the `pickPhrase()` draw and `token` the `randString(8)`
draw. Returns the challenge message id. -/
def handleJoinOne (s : BotState) (chatID joinMsgID : Int) (u : GoUser)
    (phrase token : String) : BotState × Int :=
  let callbackData := "click:" ++ toString u.id ++ ":" ++ token
  let text := "Привет, " ++ usernameOf u ++ "!\nНажмите кнопку, чтобы подтвердить вход"
  let sent := safeSendSilentWithMarkup s chatID text (phrase ++ " 👉") callbackData
  (safeDeleteMessage sent.1 chatID joinMsgID, sent.2)

/-- `handleJoinMessage` (lines 249-277): processes every new member, pairing
each with its random draws, and returns the argument triples
`(greetMsgID, userID, token)` of the `startProgressbar` goroutines it spawns. -/
def handleJoinMessage (s : BotState) (msg : GoMessage) (fresh : List (String × String)) :
    BotState × List (Int × Int × String) :=
  (msg.newChatMembers.zip fresh).foldl
    (fun acc uf =>
      let done := handleJoinOne acc.1 msg.chatID msg.messageID uf.1 uf.2.1 uf.2.2
      (done.1, acc.2 ++ [(done.2, uf.1.id, uf.2.2)]))
    (s, [])

/-- The registration prefix of `startProgressbar` (lines 283-301): sends the
countdown message, stores the active token, registers the session record
keyed by the challenge message id, and clears the user's cached messages.
`chanId` identifies the fresh `stop` channel. -/
def startProgressbarRegister (s : BotState) (chatID greetMsgID userID : Int)
    (token : String) (chanId : Int) : BotState :=
  let sent := safeSendSilent s chatID "⏳"
  let s2 := { sent.1 with activeTokens := assocSet sent.1.activeTokens userID token }
  let pd := ProgressData.mk chanId token userID greetMsgID sent.2
  let s3 := { s2 with progressStore := assocSet s2.progressStore greetMsgID pd }
  deleteUserMessages s3 chatID userID

/-! ## The countdown task as a small-step system (`bot.go` lines 303-361)

After registration the goroutine loops while `remaining > 0`, selecting
between the closed `stop` channel (then `stopProgressbar` and return) and
the ticker (then edit the countdown message and decrement). When several
`select` cases are ready Go picks one pseudo-randomly, so the choice is a
schedule parameter; the `stop` case can only be taken once the channel is
closed. When the loop exits, the expiry path runs unconditionally: the
exclusion notice edit (line 324), the ban call (lines 326-358, one effect),
then `stopProgressbar` (line 360). -/

inductive CountdownPC where
  | inLoop (remaining : Int) (step : Nat)
  | atBan
  | atFinalStop
  | finished
deriving DecidableEq

structure CountdownTask where
  chatID : Int
  greetMsgID : Int
  userID : Int
  token : String
  chanId : Int
  progressMsgID : Int
  timeout : Int
  pc : CountdownPC
deriving DecidableEq

inductive SelectChoice where
  | stopBranch
  | tickBranch
deriving DecidableEq

/-- The countdown-edit text of line 317. The call site always satisfies
`progressBar`'s no-panic precondition, so `getD` never supplies its default. -/
def progressText (timeout remaining : Int) (step : Nat) : String :=
  "⏳ Осталось:\n" ++ (progressBar timeout remaining).getD "" ++ " " ++ nextClockEmoji step

/-- One atomic step of the countdown goroutine. In the loop with
`remaining > 0`, `choice` resolves the `select`: the stop branch is only
enabled once the channel is closed (otherwise the step blocks, modelled as a
no-op); the tick branch is always schedulable since the ticker keeps firing. -/
def stepCountdown (b : BotState) (t : CountdownTask) (choice : SelectChoice) :
    BotState × CountdownTask :=
  match t.pc with
  | .inLoop r st =>
    if r > 0 then
      match choice with
      | .stopBranch =>
        if t.chanId ∈ b.closedChans then
          (stopProgressbar b t.chatID t.greetMsgID, { t with pc := .finished })
        else (b, t)
      | .tickBranch =>
        (safeEditMessage b t.chatID t.progressMsgID (progressText t.timeout r st),
         { t with pc := .inLoop (r - 1) (st + 1) })
    else
      (safeEditMessage b t.chatID t.progressMsgID
        "🚫 Время вышло! Пользователь заблокирован навсегда.",
       { t with pc := .atBan })
  | .atBan => (emit b (Effect.banChatMember t.chatID t.userID), { t with pc := .atFinalStop })
  | .atFinalStop => (stopProgressbar b t.chatID t.greetMsgID, { t with pc := .finished })
  | .finished => (b, t)

/-- The bot state together with one countdown goroutine. -/
structure Sys where
  bot : BotState
  task : CountdownTask
deriving DecidableEq

/-- A schedule entry: run one countdown step (with the given `select`
resolution) or process one callback update. -/
inductive SchedStep where
  | task (choice : SelectChoice)
  | callback (cb : Callback)
deriving DecidableEq

def sysStep (sys : Sys) : SchedStep → Sys
  | .task c =>
    let bt := stepCountdown sys.bot sys.task c
    ⟨bt.1, bt.2⟩
  | .callback cb => ⟨handleCallback sys.bot cb, sys.task⟩

def sysRun (sys : Sys) (sched : List SchedStep) : Sys :=
  sched.foldl sysStep sys

/-! ## Message retention sweep (`CleanupOldMessages`, lines 468-487) -/

/-- The inner loop of `CleanupOldMessages` over one user's list: entries with
`timestamp.Before(cutoff)` are deleted (one delete call each) and dropped,
the rest are kept in order. -/
def sweepUserList (cutoff : Int) : List CachedMessage → List CachedMessage × List Effect
  | [] => ([], [])
  | m :: t =>
    let rest := sweepUserList cutoff t
    if m.timestamp < cutoff then
      (rest.1, Effect.deleteMessage m.msg.chatID m.msg.messageID :: rest.2)
    else (m :: rest.1, rest.2)

/-- The outer loop of `CleanupOldMessages`: users whose list becomes empty
are removed from the map. -/
def sweepUsers (cutoff : Int) :
    List (Int × List CachedMessage) → List (Int × List CachedMessage) × List Effect
  | [] => ([], [])
  | (uid, l) :: t =>
    let ul := sweepUserList cutoff l
    let rest := sweepUsers cutoff t
    (if ul.1 = [] then rest.1 else (uid, ul.1) :: rest.1, ul.2 ++ rest.2)

/-- `CleanupOldMessages` at time `now`: cutoff is `now - 60` seconds. -/
def CleanupOldMessages (s : BotState) (now : Int) : BotState :=
  let swept := sweepUsers (now - 60) s.userMessages
  { s with userMessages := swept.1, trace := s.trace ++ swept.2 }

/-! ## isAdmin (`bot.go` lines 683-720)

The `adminCache` key `fmt.Sprintf("%d:%d", chatID, userID)` is in bijection
with the pair, so the cache is keyed by `(chatID, userID)`. The external
`getChatMember` role lookup (through `retryHTTP`) is supplied as
`lookupResult`: `none` when the call fails after all retries, `some status`
on success. The `network` flag records whether the external lookup ran. -/

structure AdminCacheEntry where
  status : String
  expiresAt : Int
deriving DecidableEq

structure IsAdminOutcome where
  result : Bool
  cache : List ((Int × Int) × AdminCacheEntry)
  network : Bool
deriving DecidableEq

/-- `status == "creator" || status == "administrator"`. -/
def adminStatusOk (status : String) : Bool :=
  status = "creator" || status = "administrator"

/-- The fallthrough body of `isAdmin` (lines 689-719): perform the external
lookup; on failure (after retries) return `false` with the cache unchanged;
on success classify the status and cache it for 5 minutes. -/
def isAdminFetch (cache : List ((Int × Int) × AdminCacheEntry)) (now : Int)
    (chatID userID : Int) (lookupResult : Option String) : IsAdminOutcome :=
  match lookupResult with
  | none => ⟨false, cache, true⟩
  | some status =>
    ⟨adminStatusOk status,
     assocSet cache (chatID, userID) ⟨status, now + 5 * 60⟩, true⟩

/-- `isAdmin`: serve from the cache only while `now` is before the entry's
expiry; otherwise fall through to the external lookup. -/
def isAdmin (cache : List ((Int × Int) × AdminCacheEntry)) (now : Int)
    (chatID userID : Int) (lookupResult : Option String) : IsAdminOutcome :=
  match assocGet cache (chatID, userID) with
  | some entry =>
    if now < entry.expiresAt then ⟨adminStatusOk entry.status, cache, false⟩
    else isAdminFetch cache now chatID userID lookupResult
  | none => isAdminFetch cache now chatID userID lookupResult

/-! ## Concrete scenario data for the race and validation claims -/

/-- A registered session: chat `555`, user `42`, token `AbCd1234`, challenge
message `100`, countdown message `101`, stop channel `1`. -/
def sessionPD : ProgressData := ⟨1, "AbCd1234", 42, 100, 101⟩

def sessionBot : BotState :=
  { progressStore := [(100, sessionPD)],
    activeTokens := [(42, "AbCd1234")],
    userMessages := [],
    closedChans := [],
    nextMsgID := 102,
    trace := [] }

def aliceUser : GoUser := ⟨42, "Alice", "", "alice", false⟩

/-- The genuine confirmation tap: user 42 taps the button of message 100. -/
def validCb : Callback :=
  { cbFrom := some aliceUser,
    message := some ⟨100, "", 555, none, []⟩,
    data := "click:42:AbCd1234" }

/-- The countdown goroutine of that session with one tick left. -/
def c1Task : CountdownTask := ⟨555, 100, 42, "AbCd1234", 1, 101, 60, .inLoop 1 0⟩

/-- Interleaving: the countdown exhausts and posts the exclusion notice; the
valid confirmation is processed before the expiry path reaches its
`stopProgressbar`; the expiry path then still executes the ban. -/
def c1Sched : List SchedStep :=
  [.task .tickBranch, .task .tickBranch, .callback validCb,
   .task .tickBranch, .task .tickBranch]

def c1Final : Sys := sysRun ⟨sessionBot, c1Task⟩ c1Sched

/-- The same session with two ticks left. -/
def c4Task : CountdownTask := ⟨555, 100, 42, "AbCd1234", 1, 101, 60, .inLoop 2 0⟩

/-- Interleaving: the valid confirmation is fully processed while
`remaining = 2 > 0`; afterwards every `select` (stop closed and ticker both
ready) picks the ticker, the loop drains to zero and the ban fires. -/
def c4Sched : List SchedStep :=
  [.callback validCb, .task .tickBranch, .task .tickBranch,
   .task .tickBranch, .task .tickBranch]

def c4Final : Sys := sysRun ⟨sessionBot, c4Task⟩ c4Sched

/-- A second chat member who taps the button of session 100 with a forged
payload carrying their own id and the session's (readable) token. -/
def malloryCb : Callback :=
  { cbFrom := some ⟨7, "Mallory", "", "mallory", false⟩,
    message := some ⟨100, "", 555, none, []⟩,
    data := "click:7:AbCd1234" }

/-- Join event `joinID` of user 42 in chat 555. -/
def joinMsg (joinID : Int) : GoMessage := ⟨joinID, "", 555, some aliceUser, [aliceUser]⟩

def c2Join1 : BotState × List (Int × Int × String) :=
  handleJoinMessage ⟨[], [], [], [], 200, []⟩ (joinMsg 10) [("Проверка", "tokenAA1")]

/-- After the first join is fully processed: session pending at challenge 200. -/
def c2AfterFirst : BotState := startProgressbarRegister c2Join1.1 555 200 42 "tokenAA1" 1

/-- The duplicate join event for the same (chat, user), fresh draws. -/
def c2Join2 : BotState × List (Int × Int × String) :=
  handleJoinMessage c2AfterFirst (joinMsg 11) [("Проверка", "tokenBB2")]

def c2Final : BotState := startProgressbarRegister c2Join2.1 555 202 42 "tokenBB2" 2

/-- Recognises a challenge-prompt send (the message carrying the button). -/
def isChallenge : Effect → Bool
  | .sendSilentWithMarkup _ _ _ _ _ => true
  | _ => false

/-- An admin-cache state with one entry for (chat 1, user 2) expiring at 100. -/
def adminCache0 : List ((Int × Int) × AdminCacheEntry) :=
  [((1, 2), AdminCacheEntry.mk "administrator" 100)]

/-- A cached message aged 100 seconds at sweep time 100. -/
def w9m1 : CachedMessage := CachedMessage.mk (MsgRef.mk 555 9) 0

/-- A cached message aged 10 seconds at sweep time 100. -/
def w9m2 : CachedMessage := CachedMessage.mk (MsgRef.mk 555 8) 90

/-- A bot state holding both cached messages for user 42 and a live session. -/
def w9s : BotState := BotState.mk [(100, sessionPD)] [] [(42, [w9m1, w9m2])] [] 1 []

/-! ## Helper lemmas -/

theorem assocGet_assocSet_self {α β : Type} [DecidableEq α]
    (l : List (α × β)) (k : α) (v : β) : assocGet (assocSet l k v) k = some v := by
  induction l with
  | nil => simp [assocGet, assocSet]
  | cons h t ih =>
    obtain ⟨k', v'⟩ := h
    by_cases hk : k' = k <;> simp [assocGet, assocSet, hk, ih]

theorem assocGet_assocSet_ne {α β : Type} [DecidableEq α]
    (l : List (α × β)) (k k' : α) (v : β) (h : k' ≠ k) :
    assocGet (assocSet l k v) k' = assocGet l k' := by
  have hne : ¬ k = k' := fun hh => h hh.symm
  induction l with
  | nil =>
    simp only [assocSet, assocGet]
    rw [if_neg hne]
  | cons hd t ih =>
    obtain ⟨k₀, v₀⟩ := hd
    by_cases hk : k₀ = k
    · subst hk
      simp only [assocSet, if_pos rfl, assocGet]
      rw [if_neg hne, if_neg hne]
    · simp only [assocSet, if_neg hk, assocGet, ih]

theorem assocGet_assocRemove_self {α β : Type} [DecidableEq α]
    (l : List (α × β)) (k : α) : assocGet (assocRemove l k) k = none := by
  induction l with
  | nil => simp [assocGet, assocRemove]
  | cons hd t ih =>
    obtain ⟨k', v'⟩ := hd
    by_cases hk : k' = k <;> simp [assocGet, assocRemove, hk, ih]

theorem assocGet_eq_none_of_not_mem_keys {α β : Type} [DecidableEq α]
    (l : List (α × β)) (k : α) (h : k ∉ l.map Prod.fst) : assocGet l k = none := by
  induction l with
  | nil => rfl
  | cons hd t ih =>
    obtain ⟨k', v'⟩ := hd
    simp only [List.map_cons, List.mem_cons] at h
    push_neg at h
    simp only [assocGet]
    rw [if_neg (fun hh => h.1 hh.symm), ih h.2]

theorem wrap64_eq_self (x : Int) (h1 : -2 ^ 63 ≤ x) (h2 : x < 2 ^ 63) : wrap64 x = x := by
  have hp63 : (2 : Int) ^ 63 = 9223372036854775808 := by norm_num
  have hp64 : (2 : Int) ^ 64 = 18446744073709551616 := by norm_num
  unfold wrap64
  rw [hp63, hp64] at *
  rw [Int.emod_eq_of_lt (by omega) (by omega)]
  omega

theorem timeoutsOfSets_not_mem (ops : List (Int × Int)) (acc : List (Int × Int)) (chat : Int)
    (h : chat ∉ ops.map Prod.fst) :
    assocGet (ops.foldl (fun d p => timeoutsSet d p.1 p.2) acc) chat = assocGet acc chat := by
  induction ops generalizing acc with
  | nil => rfl
  | cons hd t ih =>
    simp only [List.map_cons, List.mem_cons] at h
    push_neg at h
    rw [List.foldl_cons, ih _ h.2, timeoutsSet, assocGet_assocSet_ne _ _ _ _ h.1]

theorem safeSendSilent_fst_progressStore (s : BotState) (c : Int) (t : String) :
    ((safeSendSilent s c t).1).progressStore = s.progressStore := rfl

theorem safeDeleteMessage_progressStore (s : BotState) (c m0 : Int) :
    (safeDeleteMessage s c m0).progressStore = s.progressStore := rfl

theorem stopProgressbar_lookup_self (s : BotState) (c g : Int) :
    assocGet (stopProgressbar s c g).progressStore g = none := by
  unfold stopProgressbar
  cases hget : assocGet s.progressStore g with
  | none => exact hget
  | some p => exact assocGet_assocRemove_self _ g

/-- The guard of `handleCallback`: no session record for the tapped message
means no state change and no effect at all. -/
theorem handleCallback_noEntry_noop (s : BotState) (cb : Callback) (m : GoMessage)
    (hm : cb.message = some m) (hnone : assocGet s.progressStore m.messageID = none) :
    handleCallback s cb = s := by
  cases hf : cb.cbFrom with
  | none => simp [handleCallback, hm, hf]
  | some u =>
    simp only [handleCallback, hm, hf]
    split
    · split
      · rw [hnone]
      · rfl
    · rfl

theorem handleCallback_cases (s : BotState) (cb : Callback) :
    handleCallback s cb = s ∨
    (∃ m, cb.message = some m ∧
      assocGet (handleCallback s cb).progressStore m.messageID = none) := by
  cases hm : cb.message with
  | none => left; simp [handleCallback, hm]
  | some m =>
    cases hf : cb.cbFrom with
    | none => left; simp [handleCallback, hm, hf]
    | some u =>
      simp only [handleCallback, hm, hf]
      split
      · rename_i p0 p1 p2 heq
        by_cases hclick : p0 = "click"
        · rw [if_pos hclick]
          cases hget : assocGet s.progressStore m.messageID with
          | none => left; rfl
          | some p =>
            by_cases hmatch : u.id ≠ parseIntGo p1 ∨ p.token ≠ p2
            · left
              simp only [if_pos hmatch]
            · right
              refine ⟨m, rfl, ?_⟩
              simp only [if_neg hmatch, safeSendSilent_fst_progressStore,
                safeDeleteMessage_progressStore]
              exact stopProgressbar_lookup_self s m.chatID m.messageID
        · left; rw [if_neg hclick]
      · left; rfl

theorem handleCallback_idem (s : BotState) (cb : Callback) :
    handleCallback (handleCallback s cb) cb = handleCallback s cb := by
  rcases handleCallback_cases s cb with h | ⟨m, hm, hnone⟩
  · rw [h]
    exact h
  · exact handleCallback_noEntry_noop _ cb m hm hnone

theorem sweepUserList_keep_fresh (cutoff : Int) (l : List CachedMessage) :
    ∀ m ∈ (sweepUserList cutoff l).1, ¬ m.timestamp < cutoff := by
  induction l with
  | nil => intro m hm; simp [sweepUserList] at hm
  | cons a t ih =>
    intro m hm
    simp only [sweepUserList] at hm
    by_cases ha : a.timestamp < cutoff
    · rw [if_pos ha] at hm
      exact ih m hm
    · rw [if_neg ha] at hm
      rcases List.mem_cons.mp hm with h | h
      · subst h; exact ha
      · exact ih m h

theorem sweepUserList_mem_keep (cutoff : Int) (l : List CachedMessage) (m : CachedMessage)
    (hm : m ∈ l) (hfresh : ¬ m.timestamp < cutoff) : m ∈ (sweepUserList cutoff l).1 := by
  induction l with
  | nil => cases hm
  | cons a t ih =>
    simp only [sweepUserList]
    rcases List.mem_cons.mp hm with h | h
    · subst h
      rw [if_neg hfresh]
      exact List.mem_cons_self _ _
    · by_cases ha : a.timestamp < cutoff
      · rw [if_pos ha]; exact ih h
      · rw [if_neg ha]; exact List.mem_cons_of_mem _ (ih h)

theorem sweepUserList_mem_del (cutoff : Int) (l : List CachedMessage) (m : CachedMessage)
    (hm : m ∈ l) (hold : m.timestamp < cutoff) :
    Effect.deleteMessage m.msg.chatID m.msg.messageID ∈ (sweepUserList cutoff l).2 := by
  induction l with
  | nil => cases hm
  | cons a t ih =>
    simp only [sweepUserList]
    rcases List.mem_cons.mp hm with h | h
    · subst h
      rw [if_pos hold]
      exact List.mem_cons_self _ _
    · by_cases ha : a.timestamp < cutoff
      · rw [if_pos ha]; exact List.mem_cons_of_mem _ (ih h)
      · rw [if_neg ha]; exact ih h

theorem sweepUsers_lookup_none (cutoff : Int) (t : List (Int × List CachedMessage)) (uid : Int)
    (h : uid ∉ t.map Prod.fst) : assocGet (sweepUsers cutoff t).1 uid = none := by
  induction t with
  | nil => rfl
  | cons hd t ih =>
    obtain ⟨u₀, l₀⟩ := hd
    simp only [List.map_cons, List.mem_cons] at h
    push_neg at h
    simp only [sweepUsers]
    by_cases he : (sweepUserList cutoff l₀).1 = []
    · rw [if_pos he]; exact ih h.2
    · rw [if_neg he]
      simp only [assocGet]
      rw [if_neg (fun hh => h.1 hh.symm)]
      exact ih h.2

theorem sweepUsers_lookup (cutoff : Int) (um : List (Int × List CachedMessage))
    (uid : Int) (l : List CachedMessage)
    (hnd : (um.map Prod.fst).Nodup) (hget : assocGet um uid = some l) :
    (assocGet (sweepUsers cutoff um).1 uid =
      if (sweepUserList cutoff l).1 = [] then none else some (sweepUserList cutoff l).1) ∧
    ∀ e ∈ (sweepUserList cutoff l).2, e ∈ (sweepUsers cutoff um).2 := by
  induction um with
  | nil => cases hget
  | cons hd t ih =>
    obtain ⟨u₀, l₀⟩ := hd
    simp only [List.map_cons, List.nodup_cons] at hnd
    simp only [assocGet] at hget
    by_cases h0 : u₀ = uid
    · rw [if_pos h0] at hget
      obtain rfl : l = l₀ := (Option.some.inj hget).symm
      subst h0
      simp only [sweepUsers]
      constructor
      · by_cases he : (sweepUserList cutoff l).1 = []
        · rw [if_pos he, if_pos he]
          exact sweepUsers_lookup_none cutoff t u₀ hnd.1
        · rw [if_neg he, if_neg he]
          simp [assocGet]
      · intro e he
        exact List.mem_append_left _ he
    · rw [if_neg h0] at hget
      have ihh := ih hnd.2 hget
      simp only [sweepUsers]
      constructor
      · by_cases he : (sweepUserList cutoff l₀).1 = []
        · rw [if_pos he]; exact ihh.1
        · rw [if_neg he]
          simp only [assocGet]
          rw [if_neg h0]
          exact ihh.1
      · intro e he
        exact List.mem_append_right _ (ihh.2 e he)

theorem isAdminFetch_network (cache : List ((Int × Int) × AdminCacheEntry)) (now c u : Int)
    (lr : Option String) : (isAdminFetch cache now c u lr).network = true := by
  cases lr <;> rfl

theorem isAdmin_networks_of_stale (cache : List ((Int × Int) × AdminCacheEntry))
    (now c u : Int) (lr : Option String)
    (h : ∀ e, assocGet cache (c, u) = some e → e.expiresAt ≤ now) :
    (isAdmin cache now c u lr).network = true := by
  unfold isAdmin
  cases hget : assocGet cache (c, u) with
  | none => exact isAdminFetch_network cache now c u lr
  | some e =>
    simp only [if_neg (not_lt.mpr (h e hget))]
    exact isAdminFetch_network cache now c u lr

theorem isAdmin_fail_closed (cache : List ((Int × Int) × AdminCacheEntry)) (now c u : Int)
    (h : ∀ e, assocGet cache (c, u) = some e → e.expiresAt ≤ now) :
    isAdmin cache now c u none = ⟨false, cache, true⟩ := by
  unfold isAdmin
  cases hget : assocGet cache (c, u) with
  | none => rfl
  | some e => simp only [if_neg (not_lt.mpr (h e hget))]; rfl

theorem isAdmin_cached_only_fresh (cache : List ((Int × Int) × AdminCacheEntry))
    (now c u : Int) (lr : Option String)
    (h : (isAdmin cache now c u lr).network = false) :
    ∃ e, assocGet cache (c, u) = some e ∧ now < e.expiresAt ∧
      (isAdmin cache now c u lr).result = adminStatusOk e.status := by
  by_cases hfresh : ∃ e, assocGet cache (c, u) = some e ∧ now < e.expiresAt
  · obtain ⟨e, hget, hexp⟩ := hfresh
    refine ⟨e, hget, hexp, ?_⟩
    unfold isAdmin
    simp only [hget, if_pos hexp]
  · exfalso
    have htrue : (isAdmin cache now c u lr).network = true := by
      unfold isAdmin
      cases hget : assocGet cache (c, u) with
      | none => exact isAdminFetch_network cache now c u lr
      | some e =>
        have hexp : ¬ now < e.expiresAt := fun hx => hfresh ⟨e, hget, hx⟩
        simp only [if_neg hexp]
        exact isAdminFetch_network cache now c u lr
    rw [htrue] at h
    exact Bool.noConfusion h

/-! ## Claim theorems -/

/-- C1: the claim asserts that the confirm path and the expiry path resolve
every session exactly once, so the confirmed-effects (welcome message,
cancellation) and the expired-effects (exclusion call) never both execute.
The code violates this: the exclusion call (lines 326-358) runs before the
expiry path's one-shot `stopProgressbar` (line 360), so a valid confirmation
processed after the countdown exhausts but before line 360 performs the full
confirmed-effects while the expiry path still performs the ban. The schedule
`c1Sched` exhibits such an interleaving: both the welcome send and the
exclusion call appear in the final trace. -/
theorem race_confirm_and_expiry_both_execute :
    Effect.sendSilent 555 "✨ Alice, добро пожаловать!" 102 ∈ c1Final.bot.trace ∧
    Effect.deleteMessage 555 100 ∈ c1Final.bot.trace ∧
    Effect.banChatMember 555 42 ∈ c1Final.bot.trace := by decide

/-- C2: the claim (following the spec) requires a join event for a (chat,
user) pair with a pending session to be an idempotent no-op. The code never
checks for an existing session: processing a second join for user 42 while
session 200 is still pending sends a second challenge prompt, spawns a second
countdown goroutine with a fresh token, overwrites the user's active token,
and leaves two live session records. -/
theorem duplicate_join_starts_second_challenge :
    assocGet c2AfterFirst.progressStore 200 =
      some (ProgressData.mk 1 "tokenAA1" 42 200 201) ∧
    assocGet c2AfterFirst.activeTokens 42 = some "tokenAA1" ∧
    c2Join2.2 = [(202, 42, "tokenBB2")] ∧
    c2Final.trace.countP isChallenge = 2 ∧
    assocGet c2Final.activeTokens 42 = some "tokenBB2" ∧
    c2Final.progressStore.length = 2 := by decide

/-- C3: the claim requires a confirmation whose tapping user differs from the
session's user to have no observable effect. The code compares the tapper
only against the user id embedded in the callback payload (line 411), never
against the stored session's `userID`: user 7, presenting a forged payload
`click:7:<token>` with session 100's real token, resolves user 42's session
and receives the welcome message. -/
theorem forged_callback_wrong_user_has_effect :
    (assocGet sessionBot.progressStore 100).map ProgressData.userID = some 42 ∧
    malloryCb.cbFrom = some (GoUser.mk 7 "Mallory" "" "mallory" false) ∧
    (7 : Int) ≠ 42 ∧
    Effect.sendSilent 555 "✨ Mallory, добро пожаловать!" 102 ∈
      (handleCallback sessionBot malloryCb).trace ∧
    assocGet (handleCallback sessionBot malloryCb).progressStore 100 = none := by decide

/-- C4: the claim asserts that a valid confirmation processed while
`remaining > 0` cancels the countdown and the exclusion call is never
invoked. In the code the confirmation closes the `stop` channel, but on every
following loop iteration `select` chooses pseudo-randomly between the closed
channel and the ticker; the schedule in which the ticker keeps winning drains
`remaining` to zero, and the expiry path then invokes the exclusion call
unconditionally. Under `c4Sched` the confirmation completes at
`remaining = 2 > 0` (welcome emitted, no ban yet) and the final trace still
contains the exclusion call. -/
theorem confirmed_before_zero_exclusion_still_invoked :
    c4Task.pc = CountdownPC.inLoop 2 0 ∧
    Effect.sendSilent 555 "✨ Alice, добро пожаловать!" 102 ∈
      (sysRun ⟨sessionBot, c4Task⟩ [SchedStep.callback validCb]).bot.trace ∧
    Effect.banChatMember 555 42 ∉
      (sysRun ⟨sessionBot, c4Task⟩ [SchedStep.callback validCb]).bot.trace ∧
    Effect.banChatMember 555 42 ∈ c4Final.bot.trace := by decide

/-- C5: confirmation is idempotent. Once a session is terminal its record is
gone from `progressStore`, and `handleCallback` on a message with no record
returns the state unchanged (no state change, no send, no delete); hence
running the same confirmation twice equals running it once. -/
theorem confirmation_idempotent :
    (∀ (s : BotState) (cb : Callback) (m : GoMessage), cb.message = some m →
      assocGet s.progressStore m.messageID = none → handleCallback s cb = s) ∧
    (∀ (s : BotState) (cb : Callback),
      handleCallback (handleCallback s cb) cb = handleCallback s cb) :=
  ⟨handleCallback_noEntry_noop, handleCallback_idem⟩

theorem confirmation_idempotent_witness :
    handleCallback (BotState.mk [] [] [] [] 1 []) validCb = BotState.mk [] [] [] [] 1 [] ∧
    handleCallback (handleCallback sessionBot validCb) validCb =
      handleCallback sessionBot validCb :=
  ⟨confirmation_idempotent.1 (BotState.mk [] [] [] [] 1 []) validCb
      (GoMessage.mk 100 "" 555 none []) rfl rfl,
   confirmation_idempotent.2 sessionBot validCb⟩

/-- C6: `Timeouts.Set(chat, s)` stores `5` when `s < 5`, `600` when `s > 600`,
and `s` otherwise (read back by `Get` on the same chat); and for every chat on
which `Set` was never called, `Get` returns the default `60`. -/
theorem timeouts_set_clamps_and_get_defaults :
    (∀ (data : List (Int × Int)) (chat s : Int),
      timeoutsGet (timeoutsSet data chat s) chat =
        if s < 5 then 5 else if s > 600 then 600 else s) ∧
    (∀ (ops : List (Int × Int)) (chat : Int),
      chat ∉ ops.map Prod.fst → timeoutsGet (timeoutsOfSets ops) chat = 60) := by
  constructor
  · intro data chat s
    rw [timeoutsGet, timeoutsSet]
    simp only [assocGet_assocSet_self]
    rw [MinTimeoutSec, MaxTimeoutSec]
    split <;> split <;> omega
  · intro ops chat h
    rw [timeoutsGet, timeoutsOfSets, timeoutsOfSets_not_mem ops [] chat h]
    rfl

theorem timeouts_set_clamps_and_get_defaults_witness :
    timeoutsGet (timeoutsSet [] 555 1000) 555 = (if (1000 : Int) < 5 then 5
      else if (1000 : Int) > 600 then 600 else 1000) ∧
    timeoutsGet (timeoutsOfSets [(1, 42)]) 555 = 60 :=
  ⟨timeouts_set_clamps_and_get_defaults.1 [] 555 1000,
   timeouts_set_clamps_and_get_defaults.2 [(1, 42)] 555 (by decide)⟩

/-- C7: `isAdmin` serves a cached classification only while the entry's
expiry is still in the future (an entry whose expiry has passed always causes
the external lookup to run); a lookup failure after all retries returns
`false`, stores nothing, and therefore the next call — at any later time —
performs the external lookup again. -/
theorem isAdmin_ttl_and_fail_closed :
    (∀ (cache : List ((Int × Int) × AdminCacheEntry)) (now c u : Int) (lr : Option String),
      (isAdmin cache now c u lr).network = false →
      ∃ e, assocGet cache (c, u) = some e ∧ now < e.expiresAt ∧
        (isAdmin cache now c u lr).result = adminStatusOk e.status) ∧
    (∀ (cache : List ((Int × Int) × AdminCacheEntry)) (now c u : Int) (lr : Option String)
      (e : AdminCacheEntry), assocGet cache (c, u) = some e → e.expiresAt ≤ now →
      (isAdmin cache now c u lr).network = true) ∧
    (∀ (cache : List ((Int × Int) × AdminCacheEntry)) (now c u : Int),
      (∀ e, assocGet cache (c, u) = some e → e.expiresAt ≤ now) →
      isAdmin cache now c u none = ⟨false, cache, true⟩) ∧
    (∀ (cache : List ((Int × Int) × AdminCacheEntry)) (now now' c u : Int)
      (lr' : Option String),
      (∀ e, assocGet cache (c, u) = some e → e.expiresAt ≤ now) → now ≤ now' →
      (isAdmin (isAdmin cache now c u none).cache now' c u lr').network = true) := by
  refine ⟨isAdmin_cached_only_fresh, ?_, isAdmin_fail_closed, ?_⟩
  · intro cache now c u lr e hget hexp
    refine isAdmin_networks_of_stale cache now c u lr ?_
    intro e' he'
    rw [hget] at he'
    obtain rfl : e = e' := Option.some.inj he'
    exact hexp
  · intro cache now now' c u lr' h hle
    have hc : (isAdmin cache now c u none).cache = cache := by
      rw [isAdmin_fail_closed cache now c u h]
    rw [hc]
    refine isAdmin_networks_of_stale cache now' c u lr' ?_
    intro e he
    exact le_trans (h e he) hle

theorem isAdmin_ttl_and_fail_closed_witness :
    (∃ e, assocGet adminCache0 (1, 2) = some e ∧ (50 : Int) < e.expiresAt ∧
      (isAdmin adminCache0 50 1 2 none).result = adminStatusOk e.status) ∧
    (isAdmin adminCache0 100 1 2 (some "member")).network = true ∧
    isAdmin adminCache0 100 1 2 none = ⟨false, adminCache0, true⟩ ∧
    (isAdmin (isAdmin adminCache0 100 1 2 none).cache 150 1 2 none).network = true :=
  ⟨isAdmin_ttl_and_fail_closed.1 adminCache0 50 1 2 none (by decide),
   isAdmin_ttl_and_fail_closed.2.1 adminCache0 100 1 2 (some "member")
     (AdminCacheEntry.mk "administrator" 100) (by decide) (by decide),
   isAdmin_ttl_and_fail_closed.2.2.1 adminCache0 100 1 2
     (fun e he => by rw [show e = AdminCacheEntry.mk "administrator" 100 from
       (Option.some.inj he).symm]),
   isAdmin_ttl_and_fail_closed.2.2.2 adminCache0 100 150 1 2 none
     (fun e he => by rw [show e = AdminCacheEntry.mk "administrator" 100 from
       (Option.some.inj he).symm]) (by decide)⟩

/-- C8: the operation is attempted at most 3 times with strictly increasing
backoff between attempts; the first success stops the loop and returns `nil`
(after `i+1` attempts when attempts `0..i-1` failed); and when all 3 attempts
fail the error of the last attempt is returned. -/
theorem retryHTTP_bounded_increasing_lastErr :
    ∀ (E : Type) (f : Nat → Option E),
      (retryHTTP f).attempts ≤ 3 ∧
      List.Chain' (· < ·) (retryHTTP f).sleeps ∧
      (f 0 = none → (retryHTTP f).err = none ∧ (retryHTTP f).attempts = 1) ∧
      (∀ e0, f 0 = some e0 → f 1 = none →
        (retryHTTP f).err = none ∧ (retryHTTP f).attempts = 2) ∧
      (∀ e0 e1, f 0 = some e0 → f 1 = some e1 → f 2 = none →
        (retryHTTP f).err = none ∧ (retryHTTP f).attempts = 3) ∧
      (∀ e0 e1 e2, f 0 = some e0 → f 1 = some e1 → f 2 = some e2 →
        (retryHTTP f).err = some e2 ∧ (retryHTTP f).attempts = 3) := by
  intro E f
  rcases h0 : f 0 with _ | e0 <;> rcases h1 : f 1 with _ | e1 <;>
    rcases h2 : f 2 with _ | e2 <;>
    simp [retryHTTP, retryAux, h0, h1, h2, List.Chain']

theorem retryHTTP_bounded_increasing_lastErr_witness :
    (retryHTTP (fun i => some i)).attempts ≤ 3 ∧
    List.Chain' (· < ·) (retryHTTP (fun i => some i)).sleeps ∧
    (retryHTTP (fun i => some i)).err = some 2 ∧
    (retryHTTP (fun _ => (none : Option Nat))).err = none ∧
    (retryHTTP (fun _ => (none : Option Nat))).attempts = 1 :=
  ⟨(retryHTTP_bounded_increasing_lastErr Nat (fun i => some i)).1,
   (retryHTTP_bounded_increasing_lastErr Nat (fun i => some i)).2.1,
   ((retryHTTP_bounded_increasing_lastErr Nat (fun i => some i)).2.2.2.2.2
     0 1 2 rfl rfl rfl).1,
   ((retryHTTP_bounded_increasing_lastErr Nat (fun _ => none)).2.2.1 rfl).1,
   ((retryHTTP_bounded_increasing_lastErr Nat (fun _ => none)).2.2.1 rfl).2⟩

/-- C9: `CleanupOldMessages` deletes and evicts every cached entry whose age
exceeds the 60-second window at sweep time and retains entries within the
window, for every user; and it does this regardless of the session store:
replacing `progressStore` arbitrarily commutes with the sweep. The `Nodup`
hypothesis states that `userMessages` represents a Go map (one bucket per
user id). -/
theorem cleanup_sweeps_by_age_only :
    (∀ (s : BotState) (now uid : Int) (l : List CachedMessage) (m : CachedMessage),
      (s.userMessages.map Prod.fst).Nodup →
      assocGet s.userMessages uid = some l → m ∈ l →
      ((now - m.timestamp > 60 →
          Effect.deleteMessage m.msg.chatID m.msg.messageID ∈
            (CleanupOldMessages s now).trace ∧
          ∀ l', assocGet (CleanupOldMessages s now).userMessages uid = some l' → m ∉ l') ∧
       (now - m.timestamp ≤ 60 →
          ∃ l', assocGet (CleanupOldMessages s now).userMessages uid = some l' ∧ m ∈ l'))) ∧
    (∀ (s : BotState) (now : Int) (ps : List (Int × ProgressData)),
      CleanupOldMessages { s with progressStore := ps } now =
        { CleanupOldMessages s now with progressStore := ps }) := by
  constructor
  · intro s now uid l m hnd hget hm
    have hl := sweepUsers_lookup (now - 60) s.userMessages uid l hnd hget
    constructor
    · intro hold
      have hcut : m.timestamp < now - 60 := by omega
      constructor
      · have h1 := sweepUserList_mem_del (now - 60) l m hm hcut
        have h2 := hl.2 _ h1
        simp only [CleanupOldMessages, List.mem_append]
        exact Or.inr h2
      · intro l' hl' hmem
        simp only [CleanupOldMessages] at hl'
        rw [hl.1] at hl'
        by_cases he : (sweepUserList (now - 60) l).1 = []
        · rw [if_pos he] at hl'
          cases hl'
        · rw [if_neg he] at hl'
          obtain rfl : (sweepUserList (now - 60) l).1 = l' := Option.some.inj hl'
          exact sweepUserList_keep_fresh (now - 60) l m hmem hcut
    · intro hfresh
      have hcut : ¬ m.timestamp < now - 60 := by omega
      have hkeep := sweepUserList_mem_keep (now - 60) l m hm hcut
      have hne : (sweepUserList (now - 60) l).1 ≠ [] := by
        intro he
        rw [he] at hkeep
        cases hkeep
      refine ⟨(sweepUserList (now - 60) l).1, ?_, hkeep⟩
      simp only [CleanupOldMessages]
      rw [hl.1, if_neg hne]
  · intro s now ps
    rfl

theorem cleanup_sweeps_by_age_only_witness :
    (Effect.deleteMessage 555 9 ∈ (CleanupOldMessages w9s 100).trace) ∧
    (∃ l', assocGet (CleanupOldMessages w9s 100).userMessages 42 = some l' ∧ w9m2 ∈ l') := by
  refine ⟨?_, ?_⟩
  · exact ((cleanup_sweeps_by_age_only.1 w9s 100 42 [w9m1, w9m2] w9m1
      (by decide) (by decide) (by decide)).1 (by decide)).1
  · exact (cleanup_sweeps_by_age_only.1 w9s 100 42 [w9m1, w9m2] w9m2
      (by decide) (by decide) (by decide)).2 (by decide)

/-- C10, counterexample: the claim as stated quantifies over every
`remaining ≥ 0`, but with Go's wrapping `int` arithmetic the in-range input
`total = 1`, `remaining = 2^60 + 1` makes `remaining * 8` wrap negative,
`filled` escapes the `> n` cap from below, and `strings.Repeat` panics
(`none`) instead of returning a bar. -/
theorem progressBar_overflow_panics :
    (0 : Int) < 1 ∧ (0 : Int) ≤ 2 ^ 60 + 1 ∧
    progressBar 1 (2 ^ 60 + 1) = none := by decide

/-- C10, amended: for `total > 0` and `0 ≤ remaining` such that
`remaining * 8` does not overflow int64 (`remaining * 8 < 2^63`),
`progressBar` does not panic and returns a bracketed bar of
`min 8 (remaining * 8 / total)` green blocks preceded by the complementary
number of black blocks (8 blocks in all); for `total ≤ 0` it returns the
all-black 8-block bar. -/
theorem progressBar_shape_no_overflow :
    ∀ total remaining : Int,
      (0 < total → 0 ≤ remaining → remaining * 8 < 2 ^ 63 →
        ∃ g : Int, g = min 8 (Int.tdiv (remaining * 8) total) ∧ 0 ≤ g ∧ g ≤ 8 ∧
          (8 - g).toNat + g.toNat = 8 ∧
          progressBar total remaining =
            some ("[" ++ String.join (List.replicate (8 - g).toNat "⬛") ++
                  String.join (List.replicate g.toNat "🟩") ++ "]")) ∧
      (total ≤ 0 →
        progressBar total remaining =
          some ("[" ++ String.join (List.replicate 8 "⬛") ++ "]")) := by
  intro total remaining
  constructor
  · intro htotal hrem hbound
    have hdiv : 0 ≤ Int.tdiv (remaining * 8) total :=
      Int.tdiv_nonneg (by positivity) (le_of_lt htotal)
    refine ⟨min 8 (Int.tdiv (remaining * 8) total), rfl, ?_, ?_, ?_, ?_⟩
    · omega
    · omega
    · omega
    · rw [progressBar]
      simp only [if_neg (not_le.mpr htotal)]
      rw [wrap64_eq_self (remaining * 8) (by omega) hbound]
      have hcap : (if Int.tdiv (remaining * 8) total > 8 then 8
          else Int.tdiv (remaining * 8) total) =
          min 8 (Int.tdiv (remaining * 8) total) := by
        split <;> omega
      rw [hcap]
      rw [wrap64_eq_self (8 - min 8 (Int.tdiv (remaining * 8) total))
        (by omega) (by omega)]
      have h1 : ¬ (8 - min 8 (Int.tdiv (remaining * 8) total) < 0) := by omega
      have h2 : ¬ (min 8 (Int.tdiv (remaining * 8) total) < 0) := by omega
      simp [goRepeat, h1, h2]
  · intro htotal
    rw [progressBar]
    simp [goRepeat, htotal]

theorem progressBar_shape_no_overflow_witness :
    (∃ g : Int, g = min 8 (Int.tdiv ((30 : Int) * 8) 60) ∧ 0 ≤ g ∧ g ≤ 8 ∧
      (8 - g).toNat + g.toNat = 8 ∧
      progressBar 60 30 =
        some ("[" ++ String.join (List.replicate (8 - g).toNat "⬛") ++
              String.join (List.replicate g.toNat "🟩") ++ "]")) ∧
    progressBar 0 5 = some ("[" ++ String.join (List.replicate 8 "⬛") ++ "]") :=
  ⟨(progressBar_shape_no_overflow 60 30).1 (by decide) (by decide) (by decide),
   (progressBar_shape_no_overflow 0 5).2 (by decide)⟩

end TgHamster
